import Mathlib

/-!
Verification development for the customer-experience-agent repository.

The repository is a Next.js frontend (frontend/src/lib/api.ts plus page
components) talking to a REST backend. The data model below mirrors the
TypeScript interfaces declared in api.ts, and the operation definitions
mirror the event handlers in the page components, translated line by line.
Machine numbers (ids, counts) are modelled as Nat; optional fields as
Option; JavaScript string trimming as the jsTrim function below. Parts of the backend
that are not present in the repository sources are modelled from the
specification and are marked as such in their doc comments.
-/

namespace CEA

/-- Mirrors interface Customer in api.ts. -/
structure Customer where
  id : Nat
  name : String
  email : String
  company : Option String
  created_at : String
deriving Repr, DecidableEq

/-- Mirrors interface Message in api.ts; direction is the string literal
union of the values inbound and outbound. -/
structure Message where
  id : Nat
  customer_id : Nat
  direction : String
  channel : String
  subject : Option String
  body : String
  created_at : String
deriving Repr, DecidableEq

/-- Mirrors interface AuditLog in api.ts. -/
structure AuditLog where
  id : Nat
  run_id : Nat
  tool_name : String
  tool_input_json : Option String
  tool_output_json : Option String
  success : Bool
  created_at : String
deriving Repr, DecidableEq

/-- Mirrors interface PlanStep in api.ts; the params record of unknown
values is modelled as an association list of strings. -/
structure PlanStep where
  step : Nat
  action : String
  type : String
  description : String
  params : List (String × String)
deriving Repr, DecidableEq

/-- Mirrors interface PendingWrite in api.ts; the status field is the
fixed literal value pending. -/
structure PendingWrite where
  step : Nat
  action : String
  description : String
  params : List (String × String)
deriving Repr, DecidableEq

/-- Mirrors the result record inside interface ExecutedAction in api.ts. -/
structure ActionResult where
  ticket_id : Option Nat
  title : Option String
  status : Option String
  priority : Option String
  message : Option String
  error : Option String
deriving Repr, DecidableEq

/-- Mirrors interface ExecutedAction in api.ts. -/
structure ExecutedAction where
  action : String
  step : Nat
  result : ActionResult
deriving Repr, DecidableEq

/-- Mirrors interface AgentRun in api.ts. -/
structure AgentRun where
  id : Nat
  intent : String
  confidence : Rat
  plan_json : String
  audit_logs : List AuditLog
  pending_writes : Option (List PendingWrite)
  customer_id : Option Nat
  input_text : Option String
  final_reply : Option String
  created_at : Option String
deriving Repr, DecidableEq

/-- Mirrors the tagged union type SendMessageResponse in api.ts, whose two
variants are SendMessageSentResponse (status literal sent) and
SendMessagePendingResponse (status literal pending_approval). -/
inductive SendMessageResponse where
  | sent (customer_message : Message) (agent_message : Message)
      (agent_run : AgentRun)
  | pending_approval (customer_message : Message) (draft_reply : String)
      (agent_run : AgentRun) (pending_writes : List PendingWrite)
deriving Repr, DecidableEq

/-- Value of the status discriminant field of the two variants of
SendMessageResponse in api.ts. -/
def SendMessageResponse.status : SendMessageResponse → String
  | .sent _ _ _ => "sent"
  | .pending_approval _ _ _ _ => "pending_approval"

/-- Mirrors interface GmailDraftResult in api.ts. -/
structure GmailDraftResult where
  draft_id : String
  message_id : String
  success : Bool
deriving Repr, DecidableEq

/-- Mirrors interface ApproveMessageResponse in api.ts, minus the status
field whose TypeScript type is the fixed literal sent (see
ApproveMessageResponse.status below). -/
structure ApproveMessageResponse where
  agent_message : Message
  executed_actions : List ExecutedAction
  gmail : Option GmailDraftResult
deriving Repr, DecidableEq

/-- Value of the status field of ApproveMessageResponse in api.ts, which
has the fixed literal type sent. -/
def ApproveMessageResponse.status (_ : ApproveMessageResponse) : String :=
  "sent"

/-- Mirrors type ApproveAction in api.ts, the union of the two string
literals chat_only and gmail_draft. -/
inductive ApproveAction where
  | chat_only
  | gmail_draft
deriving Repr, DecidableEq

/-- Mirrors interface KBSearchResult in api.ts. -/
structure KBSearchResult where
  source_file : String
  heading : String
  snippet : String
  score : Rat
deriving Repr, DecidableEq

/-- Mirrors interface KBSearchResponse in api.ts. -/
structure KBSearchResponse where
  results : List KBSearchResult
  count : Nat
deriving Repr, DecidableEq

/-- JavaScript String.prototype.trim, modelled on the character list of
the string: leading and trailing whitespace removed. -/
def jsTrim (s : String) : String :=
  String.mk (((s.data.dropWhile Char.isWhitespace).reverse.dropWhile
    Char.isWhitespace).reverse)

/-- JavaScript String.prototype.toLowerCase, modelled characterwise. -/
def jsToLower (s : String) : String :=
  String.mk (s.data.map Char.toLower)

/-- Helper for splitWords: accumulates the current word in reverse. -/
def splitWordsAux : List Char → List Char → List String
  | [], acc => [String.mk acc.reverse]
  | c :: cs, acc =>
    if c = ' ' then String.mk acc.reverse :: splitWordsAux cs []
    else splitWordsAux cs (c :: acc)

/-- Split of a string on single spaces, keeping empty pieces, modelled on
the character list. -/
def splitWords (s : String) : List String := splitWordsAux s.data []

/-- Mirrors interface DraftReply in app/page.tsx: the local draft state
held by the Home component while a reply awaits human approval. -/
structure DraftReply where
  text : String
  originalText : String
  pendingWrites : List PendingWrite
deriving Repr, DecidableEq

/-- The slice of the Home component state (app/page.tsx) that the send
and approve handlers read and write. -/
structure HomeState where
  messages : List Message
  agentRun : Option AgentRun
  draftReply : Option DraftReply
  newMessage : String
deriving Repr, DecidableEq

/-- Request body of POST sendMessage as built by sendCustomerMessage and
createCustomerMessage in api.ts. -/
structure SendRequest where
  customerId : Nat
  text : String
  requires_approval : Bool
deriving Repr, DecidableEq

/-- Mirrors the guard of handleSendMessage in app/page.tsx: the handler
returns without issuing a request when the trimmed message text is empty,
no customer is selected, or a send is already in flight; otherwise it
issues exactly one sendCustomerMessage request carrying the trimmed text
and the human-approval flag. -/
def handleSendMessage (newMessage : String) (selectedCustomer : Option Customer)
    (sending : Bool) (humanApprovalMode : Bool) : Option SendRequest :=
  match selectedCustomer with
  | none => none
  | some c =>
    if jsTrim newMessage = "" ∨ sending then none
    else some { customerId := c.id, text := jsTrim newMessage,
                requires_approval := humanApprovalMode }

/-- Mirrors the response processing of handleSendMessage in app/page.tsx:
on a pending_approval response it appends only the inbound customer
message and stores the draft with its pending writes locally; on a sent
response it appends the customer message and the agent message and clears
any draft. In both branches the input box is cleared. -/
def applySendResponse (s : HomeState) (r : SendMessageResponse) : HomeState :=
  match r with
  | .pending_approval cm draft run pws =>
    { s with messages := s.messages ++ [cm], agentRun := some run,
             draftReply := some { text := draft, originalText := draft,
                                  pendingWrites := pws },
             newMessage := "" }
  | .sent cm am run =>
    { s with messages := s.messages ++ [cm, am], agentRun := some run,
             draftReply := none, newMessage := "" }

/-- Request body of POST approve as built by approveMessage in api.ts. -/
structure ApproveRequest where
  draft_text : String
  action : ApproveAction
  email_subject : String
deriving Repr, DecidableEq

/-- Mirrors the guard and the approveMessage call of
handleApproveWithOptions in app/page.tsx: the handler returns without
issuing a request when there is no draft, no customer, or an approval is
already in flight; otherwise it issues one approveMessage request with the
draft text, the selected action, and the email subject only when the
action is gmail_draft (the empty string otherwise). -/
def handleApproveWithOptions (draftReply : Option DraftReply)
    (customer : Option Customer) (approving : Bool)
    (approveAction : ApproveAction) (emailSubject : String) :
    Option ApproveRequest :=
  match draftReply, customer with
  | some d, some _ =>
    if approving then none
    else some { draft_text := d.text, action := approveAction,
                email_subject := match approveAction with
                  | .gmail_draft => emailSubject
                  | .chat_only => "" }
  | _, _ => none

/-- Mirrors the success path of handleApproveWithOptions in app/page.tsx:
the agent message of the response is appended to the conversation and the
pending draft is cleared; this happens before the gmail field of the
response is inspected, so the new state does not depend on it. -/
def applyApproveResponse (s : HomeState) (r : ApproveMessageResponse) :
    HomeState :=
  { s with messages := s.messages ++ [r.agent_message], draftReply := none }

/-- Mirrors the disabled condition of the approve button in app/page.tsx:
disabled while the trimmed draft text is empty, while an approval is in
flight, or while the action is gmail_draft and the trimmed email subject
is empty. -/
def approveButtonDisabled (draftText : String) (approving : Bool)
    (approveAction : ApproveAction) (emailSubject : String) : Bool :=
  jsTrim draftText == "" || approving ||
    (approveAction == ApproveAction.gmail_draft && jsTrim emailSubject == "")

/-- Mirrors findAuditLog in the AgentPanel component of app/page.tsx: the
first audit log of the run whose tool name equals the action of the step,
if any. -/
def findAuditLog (agentRun : AgentRun) (step : PlanStep) : Option AuditLog :=
  agentRun.audit_logs.find? (fun log => log.tool_name == step.action)

/-- Mirrors isStepExecuted in the AgentPanel component of app/page.tsx;
the executedSteps set of action names is modelled as a list. -/
def isStepExecuted (agentRun : AgentRun) (executedSteps : List String)
    (step : PlanStep) : Bool :=
  executedSteps.contains step.action || (findAuditLog agentRun step).isSome

/-- Mirrors handleActionExecuted in the AgentPanel component of
app/page.tsx: on a successful manual execution the action name of the
selected step is added to the executedSteps set. -/
def handleActionExecuted (executedSteps : List String)
    (selectedStepAction : Option String) : List String :=
  match selectedStepAction with
  | some a => a :: executedSteps
  | none => executedSteps

/-- JavaScript truthiness of a nullable number, as used on agentRunId in
the canExecute condition of StepDetailsModal. -/
def jsTruthyNum : Option Int → Bool
  | none => false
  | some n => n != 0

/-- Mirrors the isExecuted condition of StepDetailsModal in app/page.tsx:
an audit log was passed in, or the action output was produced locally in
this modal session. -/
def modalIsExecuted (auditLog : Option AuditLog)
    (localOutput : Option (List (String × String))) : Bool :=
  auditLog.isSome || localOutput.isSome

/-- Mirrors the canExecute condition of StepDetailsModal in app/page.tsx:
the manual Execute Action affordance is offered only for a write step that
is not executed and only when an agent run id is available. -/
def canExecute (step : PlanStep) (auditLog : Option AuditLog)
    (localOutput : Option (List (String × String)))
    (agentRunId : Option Int) : Bool :=
  step.type == "write" && !(modalIsExecuted auditLog localOutput) &&
    jsTruthyNum agentRunId

/-- Result of the parseJson helper of StepDetailsModal in app/page.tsx:
null for a missing or empty string, the parsed value on success, or the
raw string when parsing fails. -/
inductive ParsedJson (α : Type) where
  | null
  | parsed (v : α)
  | raw (s : String)
deriving Repr, DecidableEq

/-- Mirrors the parseJson helper of StepDetailsModal in app/page.tsx. The
external JSON.parse runtime function is passed in as an arbitrary total
parser returning an error value on failure; the try/catch of the source
becomes the match on that error. A missing string, and the empty string
(falsy in JavaScript), give null; a failed parse gives back the raw
string. -/
def parseJson {α : Type} (parse : String → Except String α)
    (jsonStr : Option String) : ParsedJson α :=
  match jsonStr with
  | none => .null
  | some s =>
    if s = "" then .null
    else
      match parse s with
      | .ok v => .parsed v
      | .error _ => .raw s

/-- Mirrors the plan computation of the AgentPanel component in
app/page.tsx: the plan json of the run is parsed and any parse failure
falls back to the empty plan. -/
def planOfRun (parse : String → Except String (List PlanStep))
    (run : AgentRun) : List PlanStep :=
  match parse run.plan_json with
  | .ok p => p
  | .error _ => []

/-- Mirrors the response coercion of searchKnowledgeBase in api.ts: a
missing results field becomes the empty list and a missing count becomes
zero. -/
def searchKnowledgeBase (data_results : Option (List KBSearchResult))
    (data_count : Option Nat) : KBSearchResponse :=
  { results := data_results.getD [], count := data_count.getD 0 }

/-- Mirrors the guard of the Knowledge Base search button and of its enter
key handler in app/page.tsx: a search is issued only when the trimmed
query is nonempty. -/
def kbSearchIssued (kbSearchQuery : String) : Bool :=
  jsTrim kbSearchQuery != ""

/-- Fixed demo customer id of the customer guest portal
(app/customer/guest/page.tsx). -/
def DEMO_CUSTOMER_ID : Nat := 2

/-- Mirrors the request body built by createCustomerMessage in api.ts,
which always sends requires_approval false. -/
def createCustomerMessage (customerId : Nat) (content : String) :
    SendRequest :=
  { customerId := customerId, text := content, requires_approval := false }

/-- Mirrors the guard and call of handleSendMessage in the customer guest
portal (app/customer/guest/page.tsx): a nonempty trimmed message is sent
to the fixed demo customer via createCustomerMessage. -/
def guestHandleSendMessage (newMessage : String) (sending : Bool) :
    Option SendRequest :=
  if jsTrim newMessage = "" ∨ sending then none
  else some (createCustomerMessage DEMO_CUSTOMER_ID (jsTrim newMessage))

/-- Outcome view of the orchestrator decision in transition 4 of the
workflow: whether an outbound message was appended, which write steps were
executed, which remain pending, and the response status. -/
structure OrchestratorDecision where
  outboundAppended : Bool
  writesExecuted : List PlanStep
  pendingWrites : List PlanStep
  status : String
deriving Repr, DecidableEq

/-- Modelled from the spec: the backend orchestrator (section 4.4,
transition 4) is not under src, only its frontend callers are. If the
caller did not request human approval the draft is persisted as the
outbound message immediately and all write steps execute; if the caller
did request approval no outbound message is persisted and no write step
executes, the write steps being returned as the pending-write view. -/
def orchestrate (requiresApproval : Bool) (plan : List PlanStep) :
    OrchestratorDecision :=
  if requiresApproval then
    { outboundAppended := false, writesExecuted := [],
      pendingWrites := plan.filter (fun s => s.type == "write"),
      status := "pending_approval" }
  else
    { outboundAppended := true,
      writesExecuted := plan.filter (fun s => s.type == "write"),
      pendingWrites := [], status := "sent" }

/-- Modelled from the spec: the backend Approval Gate (sections 4.4 step 5
and 4.5) is not under src. On approval the chat-side outbound message is
persisted unconditionally and returned with the executed write actions;
only for the gmail_draft action is the external mail-draft collaborator
invoked, its result attached to the response without its failure being
fatal to the chat-side completion. -/
def approveBackend (action : ApproveAction) (agentMessage : Message)
    (executedActions : List ExecutedAction)
    (gmailOutcome : GmailDraftResult) : ApproveMessageResponse :=
  { agent_message := agentMessage, executed_actions := executedActions,
    gmail := match action with
      | .gmail_draft => some gmailOutcome
      | .chat_only => none }

/-- Modelled from the spec: the backend executeAction endpoint (section 6)
is not under src. It must append exactly one audit log entry, guarded
against duplicate execution of the same action for the same run, so a call
for an action that already has an audit log entry leaves the run
unchanged. -/
def executeActionBackend (run : AgentRun) (action : String)
    (entry : AuditLog) : AgentRun :=
  if run.audit_logs.any (fun log => log.tool_name == action) then run
  else { run with audit_logs := run.audit_logs ++ [entry] }

/-- Number of audit log entries of a run recording a given action name. -/
def auditCount (run : AgentRun) (action : String) : Nat :=
  run.audit_logs.countP (fun log => log.tool_name == action)

/-- A section of a knowledge base document, as produced by splitting the
documents on heading boundaries. -/
structure KBSection where
  source_file : String
  heading : String
  text : String
deriving Repr, DecidableEq

/-- Lowercased tokens of a query, empty tokens dropped. -/
def kbTokens (query : String) : List String :=
  (splitWords (jsToLower query)).filter (fun t => t != "")

/-- Modelled from the spec: keyword-overlap score of a section against a
query (section 4.6); the number of lowercased query tokens occurring among
the lowercased words of the section text. -/
def kbScore (query : String) (sec : KBSection) : Nat :=
  ((kbTokens query).filter
    (fun t => (splitWords (jsToLower sec.text)).contains t)).length

/-- View of a scored section as a search result. -/
def kbResultOf (sec : KBSection) (score : Nat) : KBSearchResult :=
  { source_file := sec.source_file, heading := sec.heading,
    snippet := sec.text, score := (score : Rat) }

/-- Insertion into a list sorted by descending score, stable for ties so
that document order breaks them. -/
def insertByScore (x : KBSearchResult) :
    List KBSearchResult → List KBSearchResult
  | [] => [x]
  | y :: ys => if y.score < x.score then x :: y :: ys
               else y :: insertByScore x ys

/-- Stable sort by descending score. -/
def sortByScore : List KBSearchResult → List KBSearchResult
  | [] => []
  | x :: xs => insertByScore x (sortByScore xs)

/-- Modelled from the spec: the backend Knowledge Base Index search
(section 4.6) is not under src. Sections are scored by keyword overlap
with the query, sections with score zero are dropped, and the top five
results are returned in descending score order with ties broken by
document order. An empty query or a query matching nothing yields the
empty list. -/
def kbSearchBackend (sections : List KBSection) (query : String) :
    List KBSearchResult :=
  (sortByScore
    (((sections.map (fun sec => (sec, kbScore query sec))).filter
      (fun p => decide (0 < p.2))).map (fun p => kbResultOf p.1 p.2))).take 5

/-! Concrete sample values used to evaluate the definitions on closed
inputs. -/

def sampleCustomer : Customer :=
  { id := 1, name := "Alice", email := "alice@example.com",
    company := none, created_at := "t0" }

def sampleInbound : Message :=
  { id := 10, customer_id := 1, direction := "inbound", channel := "chat",
    subject := none, body := "hello", created_at := "t1" }

def sampleOutbound : Message :=
  { id := 11, customer_id := 1, direction := "outbound", channel := "chat",
    subject := none, body := "hi there", created_at := "t2" }

def sampleRun : AgentRun :=
  { id := 7, intent := "technical_issue", confidence := 4/5,
    plan_json := "[]", audit_logs := [], pending_writes := none,
    customer_id := some 1, input_text := none, final_reply := none,
    created_at := none }

def sampleWriteStep : PlanStep :=
  { step := 5, action := "create_ticket", type := "write",
    description := "Create a support ticket", params := [] }

def sampleLog : AuditLog :=
  { id := 21, run_id := 7, tool_name := "create_ticket",
    tool_input_json := none, tool_output_json := none, success := true,
    created_at := "t3" }

def sampleLog2 : AuditLog :=
  { id := 22, run_id := 7, tool_name := "create_ticket",
    tool_input_json := none, tool_output_json := none, success := true,
    created_at := "t4" }

def sampleRun2 : AgentRun :=
  { id := 7, intent := "technical_issue", confidence := 1,
    plan_json := "[]", audit_logs := [sampleLog, sampleLog2],
    pending_writes := none, customer_id := some 1, input_text := none,
    final_reply := none, created_at := none }

def sampleHome : HomeState :=
  { messages := [], agentRun := none, draftReply := none, newMessage := "" }

def sampleGmailFail : GmailDraftResult :=
  { draft_id := "", message_id := "", success := false }

def sampleSection : KBSection :=
  { source_file := "pricing.md", heading := "Plans",
    text := "our plans and pricing tiers" }

/-- A parser that fails on every input, standing in for JSON.parse applied
to malformed text. -/
def failingParse (α : Type) : String → Except String α :=
  fun _ => Except.error "unexpected token"

def sampleDraft : DraftReply :=
  { text := "draft", originalText := "draft", pendingWrites := [] }

def sampleApproveResponse : ApproveMessageResponse :=
  { agent_message := sampleOutbound, executed_actions := [], gmail := none }

/-! Helper lemmas. -/

/-- The modelled executeAction guard keeps the number of audit log entries
for an action at one or below. -/
lemma executeActionBackend_count_le_one (run : AgentRun) (action : String)
    (entry : AuditLog) (hc : auditCount run action ≤ 1) :
    auditCount (executeActionBackend run action entry) action ≤ 1 := by
  unfold executeActionBackend
  by_cases hAny : run.audit_logs.any (fun log => log.tool_name == action)
    = true
  · simpa [hAny] using hc
  · have hzero : run.audit_logs.countP (fun log => log.tool_name == action)
        = 0 := by
      rw [List.countP_eq_zero]
      intro l hl
      have := (List.any_eq_false.mp (Bool.eq_false_iff.mpr hAny)) l hl
      simpa using this
    have hle : List.countP (fun log => log.tool_name == action) [entry]
        ≤ 1 := by
      simp only [List.countP_cons, List.countP_nil]
      split <;> simp
    rw [if_neg hAny]
    simp only [auditCount, List.countP_append]
    rw [hzero]
    omega

/-- Re-invoking the modelled executeAction guard for an action already
recorded leaves the run unchanged. -/
lemma executeActionBackend_idem (run : AgentRun) (action : String)
    (entry entry2 : AuditLog) (he : entry.tool_name = action) :
    executeActionBackend (executeActionBackend run action entry) action
      entry2 = executeActionBackend run action entry := by
  unfold executeActionBackend
  by_cases hAny : run.audit_logs.any (fun log => log.tool_name == action)
    = true
  · simp [hAny]
  · have hAny2 : ((run.audit_logs ++ [entry]).any
        (fun log => log.tool_name == action)) = true := by
      simp [List.any_append, he]
    simp [hAny, hAny2]

/-! Claim theorems. -/

/-- C1: when a message requires approval and the response status is
pending_approval, the send handler appends only the inbound customer
message to the conversation and stores the draft reply plus pending writes
locally; the modelled orchestrator appends no outbound message and
executes no write step; only the approval handler appends the agent
message to the conversation. -/
theorem c1_pending_approval_gate
    (s s2 : HomeState) (cm : Message) (draft : String) (run : AgentRun)
    (pws : List PendingWrite) (plan : List PlanStep)
    (r2 : ApproveMessageResponse) :
    (SendMessageResponse.pending_approval cm draft run pws).status
        = "pending_approval" ∧
    applySendResponse s (.pending_approval cm draft run pws)
        = { messages := s.messages ++ [cm], agentRun := some run,
            draftReply := some { text := draft, originalText := draft,
                                 pendingWrites := pws },
            newMessage := "" } ∧
    (orchestrate true plan).outboundAppended = false ∧
    (orchestrate true plan).writesExecuted = [] ∧
    (applyApproveResponse s2 r2).messages
        = s2.messages ++ [r2.agent_message] := by
  refine ⟨rfl, rfl, ?_, ?_, rfl⟩ <;> simp [orchestrate]

/-- C3: every send response is either a sent response carrying the
customer message, agent message and agent run, or a pending_approval
response carrying the customer message, draft reply, agent run and pending
writes, and never both at once. -/
theorem c3_send_response_status (r : SendMessageResponse) :
    (r.status = "sent" ∨ r.status = "pending_approval") ∧
    ¬(r.status = "sent" ∧ r.status = "pending_approval") ∧
    (r.status = "sent" → ∃ cm am run, r = .sent cm am run) ∧
    (r.status = "pending_approval" →
      ∃ cm d run pws, r = .pending_approval cm d run pws) := by
  cases r with
  | sent cm am run =>
    refine ⟨Or.inl rfl, ?_, fun _ => ⟨cm, am, run, rfl⟩, fun h => ?_⟩
    · rintro ⟨-, h2⟩
      exact absurd h2 (show ¬("sent" = "pending_approval") by decide)
    · exact absurd h (show ¬("sent" = "pending_approval") by decide)
  | pending_approval cm d run pws =>
    refine ⟨Or.inr rfl, ?_, fun h => ?_, fun _ => ⟨cm, d, run, pws, rfl⟩⟩
    · rintro ⟨h1, -⟩
      exact absurd h1 (show ¬("pending_approval" = "sent") by decide)
    · exact absurd h (show ¬("pending_approval" = "sent") by decide)

/-- C2: the manual Execute Action affordance is offered only for a write
step with no audit log entry for its action and no execution recorded in
the current modal session; the modelled backend guard keeps the number of
audit log entries for an action at one or below and makes re-invocation a
no-op; and a successful approval clears the pending draft, after which the
approval handler issues no further request. -/
theorem c2_write_at_most_once
    (run : AgentRun) (step : PlanStep)
    (localOutput : Option (List (String × String)))
    (agentRunId : Option Int) (entry entry2 : AuditLog) (action : String)
    (s : HomeState) (r : ApproveMessageResponse) (c : Option Customer)
    (approving : Bool) (a : ApproveAction) (subj : String)
    (h : canExecute step (findAuditLog run step) localOutput agentRunId
      = true)
    (hc : auditCount run action ≤ 1) (he : entry.tool_name = action) :
    step.type = "write" ∧ localOutput = none ∧
    (∀ log ∈ run.audit_logs, log.tool_name ≠ step.action) ∧
    auditCount (executeActionBackend run action entry) action ≤ 1 ∧
    executeActionBackend (executeActionBackend run action entry) action
      entry2 = executeActionBackend run action entry ∧
    (applyApproveResponse s r).draftReply = none ∧
    handleApproveWithOptions none c approving a subj = none := by
  have h' := h
  simp only [canExecute, modalIsExecuted, Bool.and_eq_true,
    Bool.not_eq_true', Bool.or_eq_false_iff] at h'
  obtain ⟨⟨htype, hfind, hlocal⟩, -⟩ := h'
  have hlocal' : localOutput = none := by
    cases localOutput
    · rfl
    · simp at hlocal
  have hfind' : run.audit_logs.find?
      (fun log => log.tool_name == step.action) = none := by
    cases hfd : findAuditLog run step
    · exact hfd
    · rw [hfd] at hfind
      simp at hfind
  have hnolog : ∀ log ∈ run.audit_logs, log.tool_name ≠ step.action := by
    intro log hl
    have := List.find?_eq_none.mp hfind' log hl
    simpa using this
  exact ⟨by simpa using htype, hlocal', hnolog,
    executeActionBackend_count_le_one run action entry hc,
    executeActionBackend_idem run action entry entry2 he, rfl, rfl⟩

/-- C2 witness: the affordance guard and the backend guard evaluated at a
concrete run with an empty audit log and a concrete write step. -/
theorem c2_write_at_most_once_witness :
    sampleWriteStep.type = "write" ∧
    auditCount (executeActionBackend sampleRun "create_ticket" sampleLog)
      "create_ticket" ≤ 1 ∧
    executeActionBackend
        (executeActionBackend sampleRun "create_ticket" sampleLog)
        "create_ticket" sampleLog
      = executeActionBackend sampleRun "create_ticket" sampleLog ∧
    (applyApproveResponse sampleHome sampleApproveResponse).draftReply
      = none := by
  have h := c2_write_at_most_once sampleRun sampleWriteStep none (some 7)
    sampleLog sampleLog "create_ticket" sampleHome sampleApproveResponse
    (some sampleCustomer) false .chat_only "" (by decide) (by decide) rfl
  exact ⟨h.1, h.2.2.2.1, h.2.2.2.2.1, h.2.2.2.2.2.1⟩

/-- C3 witness: the status implications evaluated at a concrete sent
response. -/
theorem c3_send_response_status_witness :
    ((SendMessageResponse.sent sampleInbound sampleOutbound sampleRun).status
        = "sent" ∨
      (SendMessageResponse.sent sampleInbound sampleOutbound sampleRun).status
        = "pending_approval") ∧
    ∃ cm am run,
      SendMessageResponse.sent sampleInbound sampleOutbound sampleRun
        = .sent cm am run :=
  ⟨(c3_send_response_status (.sent sampleInbound sampleOutbound sampleRun)).1,
   (c3_send_response_status
      (.sent sampleInbound sampleOutbound sampleRun)).2.2.1 rfl⟩

/-- C4: an approve response has status sent and carries the agent message,
the executed actions, and an optional gmail result that the modelled
backend attaches only for the gmail_draft action; the action selector is
one of exactly chat_only and gmail_draft; and the approval handler sends
the email subject only with the gmail_draft action. -/
theorem c4_approve_contract
    (a : ApproveAction) (d : DraftReply) (c : Customer) (subj : String)
    (m : Message) (ea : List ExecutedAction) (g : GmailDraftResult)
    (r : ApproveMessageResponse) :
    (a = .chat_only ∨ a = .gmail_draft) ∧
    r.status = "sent" ∧
    handleApproveWithOptions (some d) (some c) false a subj
      = some { draft_text := d.text, action := a,
               email_subject := match a with
                 | .gmail_draft => subj
                 | .chat_only => "" } ∧
    (a ≠ .gmail_draft →
      (handleApproveWithOptions (some d) (some c) false a subj).map
        (fun req => req.email_subject) = some "") ∧
    ((approveBackend a m ea g).gmail.isSome ↔ a = .gmail_draft) ∧
    (approveBackend a m ea g).status = "sent" ∧
    (approveBackend a m ea g).agent_message = m ∧
    (approveBackend a m ea g).executed_actions = ea := by
  cases a <;>
    simp [handleApproveWithOptions, approveBackend,
      ApproveMessageResponse.status]

/-- C4 witness: the approve contract evaluated at the chat_only action on
concrete inputs, discharging the non-gmail hypothesis. -/
theorem c4_approve_contract_witness :
    (ApproveAction.chat_only = .chat_only ∨
      ApproveAction.chat_only = .gmail_draft) ∧
    (handleApproveWithOptions (some sampleDraft) (some sampleCustomer)
        false .chat_only "subject").map (fun req => req.email_subject)
      = some "" ∧
    ((approveBackend .chat_only sampleOutbound [] sampleGmailFail).gmail.isSome
      ↔ ApproveAction.chat_only = .gmail_draft) := by
  have h := c4_approve_contract .chat_only sampleDraft sampleCustomer
    "subject" sampleOutbound [] sampleGmailFail sampleApproveResponse
  exact ⟨h.1, h.2.2.2.1 (by decide), h.2.2.2.2.1⟩

/-- C5: a missing or failed gmail result never blocks chat-side
completion: the approval handler appends the agent message to the
conversation and clears the draft whatever the gmail field of the response
holds, and the modelled backend still returns status sent with the chat
message when the mail-draft call failed. -/
theorem c5_gmail_failure_isolation
    (s : HomeState) (m : Message) (ea : List ExecutedAction)
    (g : Option GmailDraftResult) (gFail : GmailDraftResult)
    (_hFail : gFail.success = false) :
    (applyApproveResponse s
        { agent_message := m, executed_actions := ea, gmail := g }).messages
      = s.messages ++ [m] ∧
    applyApproveResponse s
        { agent_message := m, executed_actions := ea, gmail := g }
      = applyApproveResponse s
        { agent_message := m, executed_actions := ea, gmail := none } ∧
    (approveBackend .gmail_draft m ea gFail).status = "sent" ∧
    (approveBackend .gmail_draft m ea gFail).gmail = some gFail ∧
    (approveBackend .gmail_draft m ea gFail).agent_message = m ∧
    ({ agent_message := m, executed_actions := ea, gmail := g } :
        ApproveMessageResponse).status = "sent" :=
  ⟨rfl, rfl, rfl, rfl, rfl, rfl⟩

/-- C5 witness: failure isolation evaluated at a concrete failed gmail
result. -/
theorem c5_gmail_failure_isolation_witness :
    (applyApproveResponse sampleHome
        { agent_message := sampleOutbound, executed_actions := [],
          gmail := some sampleGmailFail }).messages = [sampleOutbound] ∧
    (approveBackend .gmail_draft sampleOutbound [] sampleGmailFail).status
      = "sent" := by
  have h := c5_gmail_failure_isolation sampleHome sampleOutbound []
    (some sampleGmailFail) sampleGmailFail rfl
  exact ⟨h.1, h.2.2.1⟩

/-- C6: the send handler issues no request when the trimmed message text
is empty, every request it does issue carries nonempty trimmed text, and
the approve control is disabled while the trimmed draft text is empty and,
for the gmail_draft action, while the trimmed email subject is empty. -/
theorem c6_empty_text_rejected (nm d subj : String) (c : Option Customer)
    (sending approval approving : Bool) (a : ApproveAction) :
    (jsTrim nm = "" → handleSendMessage nm c sending approval = none) ∧
    (jsTrim d = "" → approveButtonDisabled d approving a subj = true) ∧
    (jsTrim subj = "" →
      approveButtonDisabled d approving .gmail_draft subj = true) ∧
    (∀ req, handleSendMessage nm c sending approval = some req →
      req.text = jsTrim nm ∧ req.text ≠ "") := by
  refine ⟨?_, ?_, ?_, ?_⟩
  · intro h
    cases c <;> simp [handleSendMessage, h]
  · intro h
    simp [approveButtonDisabled, h]
  · intro h
    simp [approveButtonDisabled, h]
  · intro req hreq
    cases c with
    | none => exact Option.noConfusion hreq
    | some cu =>
      simp only [handleSendMessage] at hreq
      by_cases hcond : jsTrim nm = "" ∨ sending = true
      · rw [if_pos hcond] at hreq
        exact Option.noConfusion hreq
      · rw [if_neg hcond] at hreq
        have hne : jsTrim nm ≠ "" := fun hh => hcond (Or.inl hh)
        have hr := Option.some_inj.mp hreq
        subst hr
        exact ⟨rfl, hne⟩

/-- C6 witness: the guards evaluated on whitespace-only message, draft and
subject texts. -/
theorem c6_empty_text_rejected_witness :
    handleSendMessage " " (some sampleCustomer) false false = none ∧
    approveButtonDisabled "" false .chat_only "x" = true ∧
    approveButtonDisabled "hi" false .gmail_draft " " = true := by
  refine ⟨(c6_empty_text_rejected " " "" "x" (some sampleCustomer)
      false false false .chat_only).1 (by decide),
    (c6_empty_text_rejected " " "" "x" (some sampleCustomer)
      false false false .chat_only).2.1 (by decide),
    (c6_empty_text_rejected " " "hi" " " (some sampleCustomer)
      false false false .gmail_draft).2.2.1 (by decide)⟩

/-- C7: knowledge base search with an empty or matching-nothing query
yields the empty result list and never an error: the UI issues no search
for a whitespace-only query, searchKnowledgeBase coerces a missing results
field to the empty list and a missing count to zero on every successful
response, and the modelled backend search returns the empty list for the
empty query and whenever no section scores above zero. -/
theorem c7_kb_empty_query_safe (q : String) (sections : List KBSection)
    (rs : List KBSearchResult) (n : Nat) :
    searchKnowledgeBase none none = { results := [], count := 0 } ∧
    searchKnowledgeBase (some rs) (some n) = { results := rs, count := n } ∧
    (jsTrim q = "" → kbSearchIssued q = false) ∧
    kbSearchBackend sections "" = [] ∧
    ((∀ sec ∈ sections, kbScore q sec = 0) →
      kbSearchBackend sections q = []) := by
  have hgen : ∀ (q2 : String), (∀ sec ∈ sections, kbScore q2 sec = 0) →
      kbSearchBackend sections q2 = [] := by
    intro q2 h
    unfold kbSearchBackend
    have hfil : (sections.map (fun sec => (sec, kbScore q2 sec))).filter
        (fun p => decide (0 < p.2)) = [] := by
      rw [List.filter_eq_nil_iff]
      intro p hp
      obtain ⟨sec, hsec, rfl⟩ := List.mem_map.mp hp
      simp [h sec hsec]
    rw [hfil]
    rfl
  refine ⟨rfl, rfl, ?_, ?_, hgen q⟩
  · intro h
    simp [kbSearchIssued, h]
  · refine hgen "" ?_
    intro sec hsec
    simp [kbScore, show kbTokens "" = [] from by decide]

/-- C7 witness: the coercions, the UI guard on a whitespace query, and the
backend search on a query with no overlap, evaluated on concrete data. -/
theorem c7_kb_empty_query_safe_witness :
    searchKnowledgeBase none none = { results := [], count := 0 } ∧
    kbSearchIssued " " = false ∧
    kbSearchBackend [sampleSection] "zzz" = [] := by
  have h := c7_kb_empty_query_safe " " [sampleSection] [] 0
  have h2 := c7_kb_empty_query_safe "zzz" [sampleSection] [] 0
  exact ⟨h.1, h.2.2.1 (by decide), h2.2.2.2.2 (by decide)⟩

/-- C8: a plan step is shown as executed exactly when the local
executedSteps set holds its action name or some audit log of the run has
tool_name equal to the action name; findAuditLog matches by action name
only and returns the first matching log. -/
theorem c8_step_audit_matching (run : AgentRun) (ex : List String)
    (step : PlanStep) :
    findAuditLog run step
      = run.audit_logs.find? (fun log => log.tool_name == step.action) ∧
    (isStepExecuted run ex step = true ↔
      step.action ∈ ex ∨ ∃ log ∈ run.audit_logs,
        log.tool_name = step.action) ∧
    (∀ log, findAuditLog run step = some log →
      log ∈ run.audit_logs ∧ log.tool_name = step.action) ∧
    (∀ pre post log, run.audit_logs = pre ++ log :: post →
      (∀ l ∈ pre, l.tool_name ≠ step.action) →
      log.tool_name = step.action → findAuditLog run step = some log) ∧
    (∀ a2, handleActionExecuted ex (some a2) = a2 :: ex) := by
  refine ⟨rfl, ?_, ?_, ?_, fun a2 => rfl⟩
  · simp [isStepExecuted, findAuditLog, List.find?_isSome]
  · intro log hl
    exact ⟨List.mem_of_find?_eq_some hl,
      by simpa using List.find?_some hl⟩
  · intro pre post log heq hpre hlog
    unfold findAuditLog
    rw [heq]
    clear heq
    induction pre with
    | nil => exact List.find?_cons_of_pos _ (by simp [hlog])
    | cons hd tl ih =>
      have hhd : ¬(hd.tool_name == step.action) = true := by
        simpa using hpre hd (List.mem_cons_self hd tl)
      rw [List.cons_append, List.find?_cons_of_neg _ (by simpa using hhd)]
      exact ih (fun l hl => hpre l (List.mem_cons_of_mem hd hl))

/-- C8 witness: on a run with two audit logs of the same tool name, the
first is returned and the step counts as executed. -/
theorem c8_step_audit_matching_witness :
    findAuditLog sampleRun2 sampleWriteStep = some sampleLog ∧
    isStepExecuted sampleRun2 [] sampleWriteStep = true := by
  have h := c8_step_audit_matching sampleRun2 [] sampleWriteStep
  refine ⟨h.2.2.2.1 [] [sampleLog2] sampleLog rfl (by simp) rfl, ?_⟩
  exact h.2.1.mpr (Or.inr ⟨sampleLog, by simp [sampleRun2], rfl⟩)

/-- C9: every message from the customer guest portal is addressed to the
fixed demo customer id 2 with requires_approval false, and under the
modelled orchestrator such a request takes the immediate-send path: status
sent, outbound message appended, no pending writes. -/
theorem c9_guest_portal_immediate (nm : String) (sending : Bool)
    (req : SendRequest) (plan : List PlanStep)
    (h : guestHandleSendMessage nm sending = some req) :
    req.customerId = 2 ∧ req.customerId = DEMO_CUSTOMER_ID ∧
    req.requires_approval = false ∧ req.text = jsTrim nm ∧
    (orchestrate req.requires_approval plan).status = "sent" ∧
    (orchestrate req.requires_approval plan).pendingWrites = [] ∧
    (orchestrate req.requires_approval plan).outboundAppended = true := by
  unfold guestHandleSendMessage at h
  by_cases hcond : jsTrim nm = "" ∨ sending = true
  · rw [if_pos hcond] at h
    exact Option.noConfusion h
  · rw [if_neg hcond] at h
    have hr := Option.some_inj.mp h
    subst hr
    refine ⟨rfl, rfl, rfl, rfl, ?_, ?_, ?_⟩ <;> simp [orchestrate,
      createCustomerMessage]

/-- C9 witness: a concrete guest message yields a request to customer 2
that the modelled orchestrator sends immediately. -/
theorem c9_guest_portal_immediate_witness :
    (createCustomerMessage DEMO_CUSTOMER_ID (jsTrim "help")).customerId
      = 2 ∧
    (orchestrate (createCustomerMessage DEMO_CUSTOMER_ID
      (jsTrim "help")).requires_approval [sampleWriteStep]).status
      = "sent" := by
  have h := c9_guest_portal_immediate "help" false
    (createCustomerMessage DEMO_CUSTOMER_ID (jsTrim "help"))
    [sampleWriteStep] (by decide)
  exact ⟨h.1, h.2.2.2.2.1⟩

/-- C10: rendering never fails on malformed serialized data: a failing
parse of the plan json of a run yields the empty plan, a failing parse of
a nonempty audit log json string yields the raw string, and a missing or
empty json string yields null; all are total computations, so no exception
escapes. -/
theorem c10_malformed_json_safe {α : Type}
    (parse : String → Except String (List PlanStep))
    (parseA : String → Except String α) (run : AgentRun) (s e e2 : String)
    (hp : parse run.plan_json = .error e)
    (hs : parseA s = .error e2) (hne : s ≠ "") :
    planOfRun parse run = [] ∧
    parseJson parseA (some s) = .raw s ∧
    parseJson parseA none = .null ∧
    parseJson parseA (some "") = .null := by
  refine ⟨?_, ?_, rfl, ?_⟩
  · unfold planOfRun
    rw [hp]
  · simp only [parseJson]
    rw [if_neg hne, hs]
  · simp [parseJson]

/-- C10 witness: an always-failing parser evaluated on a concrete run and
a concrete malformed string. -/
theorem c10_malformed_json_safe_witness :
    planOfRun (failingParse (List PlanStep)) sampleRun = [] ∧
    parseJson (failingParse (List PlanStep)) (some "not json")
      = .raw "not json" := by
  have h := c10_malformed_json_safe (failingParse (List PlanStep))
    (failingParse (List PlanStep)) sampleRun "not json"
    "unexpected token" "unexpected token" rfl rfl (by decide)
  exact ⟨h.1, h.2.1⟩

end CEA
